import Mathlib

/-!
Shallow embedding of the `dandidav` core sources
(`src/dandiapi/types.rs` and `src/dav/util.rs`) and proofs about them.

Types that live outside the two given source files (the path value types
from the `paths` module, URLs from the `url` crate, the storage-location
parser from the `s3` module) are modelled from the specification and are
marked as such in their doc comments; everything else follows the Rust
source directly.
-/

namespace Dandidav

/-- Modelled from the spec: a URL from the external `url` crate is an opaque
validated string, compared by value. -/
structure Url where
  url : String
deriving DecidableEq

/-- Modelled from the spec: a file path is a non-empty ordered sequence of
non-empty segments, none of which are `.` or `..` (the `paths` module is not
among the given sources, so only the value shape is modelled). -/
structure PurePath where
  segments : List String
deriving DecidableEq

/-- Modelled from the spec: a directory path has the same segment sequence as
a file path but always denotes a container (round-trips with a trailing
separator). -/
structure PureDirPath where
  segments : List String
deriving DecidableEq

/-- Modelled from the spec: converting a file path to a directory path keeps
the segment sequence and only changes the kind (adds the trailing
separator). -/
def PurePath.to_dir_path (p : PurePath) : PureDirPath :=
  ⟨p.segments⟩

/-- Embeds `OffsetDateTime` of the `time` crate at second precision: a civil
date-time plus a UTC offset in seconds. -/
structure OffsetDateTime where
  year : Int
  month : Nat
  day : Nat
  hour : Nat
  minute : Nat
  second : Nat
  offset : Int
deriving DecidableEq

/-- Embeds `AssetDigests` (field `dandi:dandi-etag`). -/
structure AssetDigests where
  dandi_etag : Option String
deriving DecidableEq

/-- Embeds `AssetMetadata`: declared encoding format, candidate content URLs,
digest set. -/
structure AssetMetadata where
  encoding_format : Option String
  content_url : List Url
  digest : AssetDigests
deriving DecidableEq

/-- Embeds `RawAsset`, the raw record deserialized from the archive API. -/
structure RawAsset where
  asset_id : String
  blob : Option String
  zarr : Option String
  path : PurePath
  size : Int
  created : OffsetDateTime
  modified : OffsetDateTime
  metadata : AssetMetadata
deriving DecidableEq

/-- Embeds `BlobAsset`. -/
structure BlobAsset where
  asset_id : String
  blob_id : String
  path : PurePath
  size : Int
  created : OffsetDateTime
  modified : OffsetDateTime
  metadata : AssetMetadata
deriving DecidableEq

/-- Embeds `ZarrAsset`. -/
structure ZarrAsset where
  asset_id : String
  zarr_id : String
  path : PurePath
  size : Int
  created : OffsetDateTime
  modified : OffsetDateTime
  metadata : AssetMetadata
deriving DecidableEq

/-- Embeds the enum `Asset`. -/
inductive Asset where
  | Blob : BlobAsset → Asset
  | Zarr : ZarrAsset → Asset
deriving DecidableEq

/-- Embeds `Asset::path`. -/
def Asset.path : Asset → PurePath
  | Asset.Blob a => a.path
  | Asset.Zarr a => a.path

/-- Embeds `Asset::size`. -/
def Asset.size : Asset → Int
  | Asset.Blob a => a.size
  | Asset.Zarr a => a.size

/-- Embeds `Asset::created`. -/
def Asset.created : Asset → OffsetDateTime
  | Asset.Blob a => a.created
  | Asset.Zarr a => a.created

/-- Embeds `Asset::modified`. -/
def Asset.modified : Asset → OffsetDateTime
  | Asset.Blob a => a.modified
  | Asset.Zarr a => a.modified

/-- Embeds `Asset::metadata`. -/
def Asset.metadata : Asset → AssetMetadata
  | Asset.Blob a => a.metadata
  | Asset.Zarr a => a.metadata

/-- Embeds the enum `AssetTypeError`. -/
inductive AssetTypeError where
  | Neither : String → AssetTypeError
  | Both : String → AssetTypeError
deriving DecidableEq

/-- Embeds `impl TryFrom<RawAsset> for Asset`: the asset disambiguator. -/
def Asset.try_from (value : RawAsset) : Except AssetTypeError Asset :=
  match value.blob, value.zarr with
  | some blob_id, none =>
      Except.ok (Asset.Blob
        ⟨value.asset_id, blob_id, value.path, value.size, value.created,
          value.modified, value.metadata⟩)
  | none, some zarr_id =>
      Except.ok (Asset.Zarr
        ⟨value.asset_id, zarr_id, value.path, value.size, value.created,
          value.modified, value.metadata⟩)
  | none, none => Except.error (AssetTypeError.Neither value.asset_id)
  | some _, some _ => Except.error (AssetTypeError.Both value.asset_id)

/-- Embeds `AssetFolder`. -/
structure AssetFolder where
  path : PureDirPath
deriving DecidableEq

/-- Embeds `RawFolderEntryAsset`. -/
structure RawFolderEntryAsset where
  asset_id : String
deriving DecidableEq

/-- Embeds `RawFolderEntry`, the raw item in an assets-paths response. -/
structure RawFolderEntry where
  path : PurePath
  asset : Option RawFolderEntryAsset
deriving DecidableEq

/-- Embeds the enum `FolderEntry`. -/
inductive FolderEntry where
  | Folder : AssetFolder → FolderEntry
  | Asset : PurePath → String → FolderEntry
deriving DecidableEq

/-- Embeds `impl From<RawFolderEntry> for FolderEntry`. -/
def FolderEntry.from (entry : RawFolderEntry) : FolderEntry :=
  match entry.asset with
  | some asset => FolderEntry.Asset entry.path asset.asset_id
  | none => FolderEntry.Folder ⟨entry.path.to_dir_path⟩

/-- Embeds `ZarrFolder`. -/
structure ZarrFolder where
  path : PureDirPath
deriving DecidableEq

/-- Embeds `ZarrEntry`. -/
structure ZarrEntry where
  path : PurePath
  size : Int
  modified : OffsetDateTime
  etag : String
  url : Url
deriving DecidableEq

/-- Embeds the enum `DandiResource`. -/
inductive DandiResource where
  | Folder : AssetFolder → DandiResource
  | Asset : Dandidav.Asset → DandiResource
  | ZarrFolder : Dandidav.ZarrFolder → DandiResource
  | ZarrEntry : Dandidav.ZarrEntry → DandiResource
deriving DecidableEq

/-- Embeds the enum `DandiResourceWithS3`. The `PrefixedS3Client` handle type
lives in the s3 module, outside the given sources, so the embedding is
polymorphic in the handle type `C`. -/
inductive DandiResourceWithS3 (C : Type) where
  | Folder : AssetFolder → DandiResourceWithS3 C
  | Asset : Dandidav.Asset → DandiResourceWithS3 C
  | ZarrFolder : Dandidav.ZarrFolder → C → DandiResourceWithS3 C
  | ZarrEntry : Dandidav.ZarrEntry → DandiResourceWithS3 C

/-- Embeds `DandiResource::with_s3`: attach a storage-scoped client handle. -/
def DandiResource.with_s3 {C : Type} (r : DandiResource) (s3 : C) :
    DandiResourceWithS3 C :=
  match r with
  | DandiResource.Folder r => DandiResourceWithS3.Folder r
  | DandiResource.Asset r => DandiResourceWithS3.Asset r
  | DandiResource.ZarrFolder folder => DandiResourceWithS3.ZarrFolder folder s3
  | DandiResource.ZarrEntry r => DandiResourceWithS3.ZarrEntry r

/-- Embeds `impl From<DandiResourceWithS3> for DandiResource`: drop the
handle. -/
def DandiResourceWithS3.to_resource {C : Type} :
    DandiResourceWithS3 C → DandiResource
  | DandiResourceWithS3.Folder r => DandiResource.Folder r
  | DandiResourceWithS3.Asset r => DandiResource.Asset r
  | DandiResourceWithS3.ZarrFolder folder _ => DandiResource.ZarrFolder folder
  | DandiResourceWithS3.ZarrEntry r => DandiResource.ZarrEntry r

/-- Modelled from the spec: an object-storage location, the output of the s3
module's URL parser (outside the given sources); its contents are opaque to
the claims, which are stated for every parse function. -/
structure S3Location where
  bucket : String
  key : String
deriving DecidableEq

/-- Embeds `BlobAsset::download_url`: the first content URL for which the
storage-location parser succeeds. -/
def BlobAsset.download_url (parse_url : Url → Option S3Location)
    (a : BlobAsset) : Option Url :=
  a.metadata.content_url.find? (fun url => (parse_url url).isSome)

/-- Embeds `BlobAsset::content_type`. -/
def BlobAsset.content_type (a : BlobAsset) : Option String :=
  a.metadata.encoding_format

/-- Embeds `BlobAsset::etag`. -/
def BlobAsset.etag (a : BlobAsset) : Option String :=
  a.metadata.digest.dandi_etag

/-- Embeds `ZarrAsset::s3location`: the first successful parse of a content
URL as a storage location. -/
def ZarrAsset.s3location (parse_url : Url → Option S3Location)
    (a : ZarrAsset) : Option S3Location :=
  a.metadata.content_url.findSome? parse_url

/-- Embeds the `NotFound` arm of the resolver's error taxonomy. -/
inductive DandiError where
  | NotFound : DandiError
deriving DecidableEq

/-- Modelled from the spec: continuing resolution into a Zarr takes the
asset's resolved storage location as key prefix and fails with `NotFound`
when no content URL parses as a storage location (the resolver module is
outside the given sources). -/
def ZarrAsset.storage_location_or_not_found
    (parse_url : Url → Option S3Location) (a : ZarrAsset) :
    Except DandiError S3Location :=
  match a.s3location parse_url with
  | some loc => Except.ok loc
  | none => Except.error DandiError.NotFound

/-! Helper lemmas: first-match characterizations of `List.find?` and
`List.findSome?`. -/

/-- Helper: `findSome?` succeeds with `b` exactly when the list splits at a
first element on which `f` succeeds with `b`. -/
theorem findSome_first_iff {α β : Type} (f : α → Option β) (l : List α)
    (b : β) :
    l.findSome? f = some b ↔
      ∃ l1 x l2, l = l1 ++ x :: l2 ∧ f x = some b ∧ ∀ y ∈ l1, f y = none := by
  induction l with
  | nil => simp
  | cons a t ih =>
    rw [List.findSome?_cons]
    cases hfa : f a with
    | some v =>
      simp only [Option.some.injEq]
      constructor
      · rintro rfl
        exact ⟨[], a, t, rfl, hfa, by simp⟩
      · rintro ⟨l1, x, l2, hdec, hfx, hnone⟩
        cases l1 with
        | nil =>
          rw [List.nil_append] at hdec
          obtain ⟨rfl, rfl⟩ := List.cons.inj hdec
          rw [hfa] at hfx
          exact Option.some.inj hfx
        | cons y l1 =>
          rw [List.cons_append] at hdec
          obtain ⟨rfl, -⟩ := List.cons.inj hdec
          have hcontra := hnone a (by simp)
          rw [hfa] at hcontra
          cases hcontra
    | none =>
      rw [ih]
      constructor
      · rintro ⟨l1, x, l2, rfl, hfx, hnone⟩
        refine ⟨a :: l1, x, l2, rfl, hfx, ?_⟩
        intro y hy
        rcases List.mem_cons.mp hy with rfl | hy
        · exact hfa
        · exact hnone y hy
      · rintro ⟨l1, x, l2, hdec, hfx, hnone⟩
        cases l1 with
        | nil =>
          rw [List.nil_append] at hdec
          obtain ⟨rfl, rfl⟩ := List.cons.inj hdec
          rw [hfa] at hfx
          cases hfx
        | cons y l1 =>
          rw [List.cons_append] at hdec
          obtain ⟨rfl, rfl⟩ := List.cons.inj hdec
          exact ⟨l1, x, l2, rfl, hfx, fun z hz => hnone z (by simp [hz])⟩

/-- Helper: `find?` succeeds with `a` exactly when the list splits at a first
element satisfying the test. -/
theorem find_first_iff {α : Type} (p : α → Bool) (l : List α) (a : α) :
    l.find? p = some a ↔
      ∃ l1 l2, l = l1 ++ a :: l2 ∧ p a = true ∧ ∀ y ∈ l1, p y = false := by
  induction l with
  | nil => simp
  | cons c t ih =>
    rw [List.find?_cons]
    cases hpc : p c with
    | true =>
      simp only [Option.some.injEq]
      constructor
      · rintro rfl
        exact ⟨[], t, rfl, hpc, by simp⟩
      · rintro ⟨l1, l2, hdec, hpa, hnone⟩
        cases l1 with
        | nil =>
          rw [List.nil_append] at hdec
          obtain ⟨rfl, rfl⟩ := List.cons.inj hdec
          rfl
        | cons y l1 =>
          rw [List.cons_append] at hdec
          obtain ⟨rfl, -⟩ := List.cons.inj hdec
          have hcontra := hnone c (by simp)
          rw [hpc] at hcontra
          cases hcontra
    | false =>
      rw [ih]
      constructor
      · rintro ⟨l1, l2, rfl, hpa, hnone⟩
        refine ⟨c :: l1, l2, rfl, hpa, ?_⟩
        intro y hy
        rcases List.mem_cons.mp hy with rfl | hy
        · exact hpc
        · exact hnone y hy
      · rintro ⟨l1, l2, hdec, hpa, hnone⟩
        cases l1 with
        | nil =>
          rw [List.nil_append] at hdec
          obtain ⟨rfl, rfl⟩ := List.cons.inj hdec
          rw [hpc] at hpa
          cases hpa
        | cons y l1 =>
          rw [List.cons_append] at hdec
          obtain ⟨rfl, rfl⟩ := List.cons.inj hdec
          exact ⟨l1, l2, rfl, hpa, fun z hz => hnone z (by simp [hz])⟩

/-- Helper: `findSome?` is `find?` on parse success followed by the parse
itself. -/
theorem findSome_eq_find_bind {α β : Type} (f : α → Option β) (l : List α) :
    l.findSome? f = (l.find? (fun x => (f x).isSome)).bind f := by
  induction l with
  | nil => rfl
  | cons a t ih =>
    rw [List.findSome?_cons, List.find?_cons]
    cases hfa : f a with
    | some v => simp [hfa]
    | none => simp [hfa, ih]

/-! Claim theorems on the asset disambiguator and folder-entry conversion. -/

/-- C1: conversion of a raw asset record is decided solely by the pair
(blob id, zarr id): blob only yields `Blob`, zarr only yields `Zarr`, neither
yields the `Neither` error with the record's asset id, both yields the `Both`
error with the record's asset id, and exactly one of the four outcomes occurs
for every record. -/
theorem asset_try_from_disambiguation (r : RawAsset) :
    ((∃ b, r.blob = some b) ∧ r.zarr = none →
      ∃ a, Asset.try_from r = Except.ok (Asset.Blob a)) ∧
    ((∃ z, r.zarr = some z) ∧ r.blob = none →
      ∃ a, Asset.try_from r = Except.ok (Asset.Zarr a)) ∧
    (r.blob = none ∧ r.zarr = none →
      Asset.try_from r = Except.error (AssetTypeError.Neither r.asset_id)) ∧
    ((∃ b, r.blob = some b) ∧ (∃ z, r.zarr = some z) →
      Asset.try_from r = Except.error (AssetTypeError.Both r.asset_id)) ∧
    ((∃ a, Asset.try_from r = Except.ok a) ∨
      (∃ i, Asset.try_from r = Except.error (AssetTypeError.Neither i)) ∨
      (∃ i, Asset.try_from r = Except.error (AssetTypeError.Both i))) ∧
    ¬((∃ a, Asset.try_from r = Except.ok a) ∧
      (∃ i, Asset.try_from r = Except.error (AssetTypeError.Neither i))) ∧
    ¬((∃ a, Asset.try_from r = Except.ok a) ∧
      (∃ i, Asset.try_from r = Except.error (AssetTypeError.Both i))) ∧
    ¬((∃ i, Asset.try_from r = Except.error (AssetTypeError.Neither i)) ∧
      (∃ j, Asset.try_from r = Except.error (AssetTypeError.Both j))) := by
  obtain ⟨aid, blob, zarr, p, sz, cr, mo, md⟩ := r
  cases blob <;> cases zarr <;>
    simp [Asset.try_from]

/-- C5: whenever the disambiguator accepts a raw record, every common field of
the produced asset (path, size, created, modified, metadata) equals the
corresponding field of the input record, the produced asset id is the
record's asset id, and the backing id is the one present id. -/
theorem asset_try_from_fields (r : RawAsset) (a : Asset)
    (h : Asset.try_from r = Except.ok a) :
    a.path = r.path ∧ a.size = r.size ∧ a.created = r.created ∧
    a.modified = r.modified ∧ a.metadata = r.metadata ∧
    (∀ ba, a = Asset.Blob ba →
      ba.asset_id = r.asset_id ∧ r.blob = some ba.blob_id ∧ r.zarr = none) ∧
    (∀ za, a = Asset.Zarr za →
      za.asset_id = r.asset_id ∧ r.zarr = some za.zarr_id ∧ r.blob = none) := by
  obtain ⟨aid, blob, zarr, p, sz, cr, mo, md⟩ := r
  cases blob <;> cases zarr <;>
    simp only [Asset.try_from, Except.ok.injEq, reduceCtorEq] at h <;>
    subst h <;>
    simp [Asset.path, Asset.size, Asset.created, Asset.modified, Asset.metadata]

/-- Witness for C5: the disambiguator at a concrete blob-only record. -/
theorem asset_try_from_fields_witness :
    (Asset.try_from
        ⟨"a1", some "b1", none, ⟨["x"]⟩, 7, ⟨2020, 1, 2, 3, 4, 5, 0⟩,
          ⟨2021, 1, 2, 3, 4, 5, 0⟩, ⟨none, [], ⟨none⟩⟩⟩ =
      Except.ok (Asset.Blob
        ⟨"a1", "b1", ⟨["x"]⟩, 7, ⟨2020, 1, 2, 3, 4, 5, 0⟩,
          ⟨2021, 1, 2, 3, 4, 5, 0⟩, ⟨none, [], ⟨none⟩⟩⟩)) ∧
    (Asset.Blob
        ⟨"a1", "b1", ⟨["x"]⟩, 7, ⟨2020, 1, 2, 3, 4, 5, 0⟩,
          ⟨2021, 1, 2, 3, 4, 5, 0⟩, ⟨none, [], ⟨none⟩⟩⟩ : Asset).path =
      (⟨["x"]⟩ : PurePath) := by
  refine ⟨rfl, ?_⟩
  exact (asset_try_from_fields
    ⟨"a1", some "b1", none, ⟨["x"]⟩, 7, ⟨2020, 1, 2, 3, 4, 5, 0⟩,
      ⟨2021, 1, 2, 3, 4, 5, 0⟩, ⟨none, [], ⟨none⟩⟩⟩
    (Asset.Blob
      ⟨"a1", "b1", ⟨["x"]⟩, 7, ⟨2020, 1, 2, 3, 4, 5, 0⟩,
        ⟨2021, 1, 2, 3, 4, 5, 0⟩, ⟨none, [], ⟨none⟩⟩⟩)
    rfl).1

/-- C7: conversion of a raw children-listing entry is decided by the optional
asset id: no asset id yields a folder at the entry's path converted to a
directory path, a present asset id yields an asset entry carrying the entry's
path and that asset id unchanged. -/
theorem folder_entry_from_cases (e : RawFolderEntry) :
    (e.asset = none →
      FolderEntry.from e = FolderEntry.Folder ⟨e.path.to_dir_path⟩) ∧
    (∀ aid, e.asset = some ⟨aid⟩ →
      FolderEntry.from e = FolderEntry.Asset e.path aid) ∧
    (e.path.to_dir_path.segments = e.path.segments) := by
  obtain ⟨p, asset⟩ := e
  match asset with
  | none => simp [FolderEntry.from, PurePath.to_dir_path]
  | some ⟨aid⟩ => simp [FolderEntry.from, PurePath.to_dir_path]

/-- C9: attaching a storage-scoped client handle and then stripping it is the
identity on every `DandiResource` variant. -/
theorem with_s3_round_trip (C : Type) (r : DandiResource) (s3 : C) :
    (r.with_s3 s3).to_resource = r := by
  cases r <;> rfl

/-- C6: for every parse function, a Zarr asset's resolved storage location is
the first successful parse of a content URL, in list order; it is `none`
exactly when no content URL parses, and exactly then continuing resolution
fails with `NotFound`. -/
theorem zarr_s3location_first (parse_url : Url → Option S3Location)
    (a : ZarrAsset) :
    (∀ loc, ZarrAsset.s3location parse_url a = some loc ↔
      ∃ l1 u l2, a.metadata.content_url = l1 ++ u :: l2 ∧
        parse_url u = some loc ∧ ∀ v ∈ l1, parse_url v = none) ∧
    (ZarrAsset.s3location parse_url a = none ↔
      ∀ u ∈ a.metadata.content_url, parse_url u = none) ∧
    (ZarrAsset.storage_location_or_not_found parse_url a =
        Except.error DandiError.NotFound ↔
      ∀ u ∈ a.metadata.content_url, parse_url u = none) := by
  refine ⟨fun loc => findSome_first_iff _ _ _, List.findSome?_eq_none_iff, ?_⟩
  rw [ZarrAsset.storage_location_or_not_found]
  cases h : ZarrAsset.s3location parse_url a with
  | some loc =>
    simp only [reduceCtorEq, false_iff]
    intro hall
    rw [ZarrAsset.s3location, (List.findSome?_eq_none_iff).mpr hall] at h
    cases h
  | none =>
    simp only [true_iff]
    rw [ZarrAsset.s3location] at h
    exact (List.findSome?_eq_none_iff).mp h

/-- C10: for every parse function, a blob asset's download URL is the first
content URL, in list order, that parses as a storage location; it is `none`
exactly when no content URL parses; and it follows the same selection rule as
the Zarr storage location: on equal metadata the Zarr location is the parse
of the blob's download URL. -/
theorem blob_download_url_first (parse_url : Url → Option S3Location)
    (b : BlobAsset) :
    (∀ u, BlobAsset.download_url parse_url b = some u ↔
      ∃ l1 l2, b.metadata.content_url = l1 ++ u :: l2 ∧
        (∃ loc, parse_url u = some loc) ∧ ∀ v ∈ l1, parse_url v = none) ∧
    (BlobAsset.download_url parse_url b = none ↔
      ∀ u ∈ b.metadata.content_url, parse_url u = none) ∧
    (∀ z : ZarrAsset, z.metadata = b.metadata →
      ZarrAsset.s3location parse_url z =
        (BlobAsset.download_url parse_url b).bind parse_url) := by
  refine ⟨?_, ?_, ?_⟩
  · intro u
    rw [BlobAsset.download_url, find_first_iff]
    constructor
    · rintro ⟨l1, l2, hdec, hu, hnone⟩
      refine ⟨l1, l2, hdec, ?_, ?_⟩
      · rcases hp : parse_url u with _ | loc
        · rw [hp] at hu
          cases hu
        · exact ⟨loc, rfl⟩
      · intro v hv
        have := hnone v hv
        rcases hp : parse_url v with _ | loc
        · rfl
        · rw [hp] at this
          cases this
    · rintro ⟨l1, l2, hdec, ⟨loc, hloc⟩, hnone⟩
      refine ⟨l1, l2, hdec, by rw [hloc]; rfl, ?_⟩
      intro v hv
      rw [hnone v hv]
      rfl
  · rw [BlobAsset.download_url, List.find?_eq_none]
    constructor
    · intro hall u hu
      have := hall u hu
      rcases hp : parse_url u with _ | loc
      · rfl
      · rw [hp] at this
        simp at this
    · intro hall u hu
      rw [hall u hu]
      simp
  · intro z hz
    rw [ZarrAsset.s3location, BlobAsset.download_url, hz,
      findSome_eq_find_bind]

/-! Embedding of `src/dav/util.rs`: depth extraction and address
rendering. -/

/-- Embeds the HTTP response the depth extractor rejects with: a status code
and a body. -/
structure Response where
  status : Nat
  body : String
deriving DecidableEq

/-- Embeds the `INFINITE_DEPTH_RESPONSE` XML body (after `indoc!`
dedenting). -/
def INFINITE_DEPTH_RESPONSE : String :=
  "<?xml version=\"1.0\" encoding=\"utf-8\"?>\n<error xmlns=\"DAV:\">\n    <propfind-finite-depth />\n</error>\n"

/-- Embeds the 403 FORBIDDEN response carrying `INFINITE_DEPTH_RESPONSE`. -/
def infiniteDepthResponse : Response :=
  ⟨403, INFINITE_DEPTH_RESPONSE⟩

/-- Embeds the 400 BAD_REQUEST response for an invalid Depth header. -/
def badRequestResponse : Response :=
  ⟨400, "Invalid \"Depth\" header\n"⟩

/-- Embeds the enum `FiniteDepth`. -/
inductive FiniteDepth where
  | Zero : FiniteDepth
  | One : FiniteDepth
deriving DecidableEq

/-- Embeds the `Depth` request header as the extractor observes it: absent,
present but not convertible to a string, or a string value. -/
inductive DepthHeader where
  | missing : DepthHeader
  | invalid : DepthHeader
  | value : String → DepthHeader
deriving DecidableEq

/-- Embeds `FiniteDepth::from_request_parts`. -/
def FiniteDepth.from_request_parts : DepthHeader → Except Response FiniteDepth
  | DepthHeader.value s =>
      if s = "0" then Except.ok FiniteDepth.Zero
      else if s = "1" then Except.ok FiniteDepth.One
      else if s = "infinity" then Except.error infiniteDepthResponse
      else Except.error badRequestResponse
  | DepthHeader.missing => Except.error infiniteDepthResponse
  | DepthHeader.invalid => Except.error badRequestResponse

/-- Embeds the uppercase hexadecimal digits of percent escapes. -/
def hexUpper (n : Nat) : Char :=
  match n % 16 with
  | 0 => '0' | 1 => '1' | 2 => '2' | 3 => '3' | 4 => '4' | 5 => '5'
  | 6 => '6' | 7 => '7' | 8 => '8' | 9 => '9' | 10 => 'A' | 11 => 'B'
  | 12 => 'C' | 13 => 'D' | 14 => 'E' | _ => 'F'

/-- Embeds the ASCII-alphanumeric byte test underlying
`percent_encoding::NON_ALPHANUMERIC` (bytes as `Nat` below 256). -/
def isAsciiAlphanumByte (b : Nat) : Bool :=
  (48 ≤ b && b ≤ 57) || (65 ≤ b && b ≤ 90) || (97 ≤ b && b ≤ 122)

/-- Embeds the `AsciiSet` `NON_ALPHANUMERIC`. -/
def NON_ALPHANUMERIC (b : Nat) : Bool :=
  !isAsciiAlphanumByte b

/-- Embeds the `AsciiSet` `PERCENT_ESCAPED`: `NON_ALPHANUMERIC` with `-`,
`.`, `/`, `_` and `~` removed. -/
def PERCENT_ESCAPED (b : Nat) : Bool :=
  NON_ALPHANUMERIC b && !(b == 45) && !(b == 46) && !(b == 47) &&
    !(b == 95) && !(b == 126)

/-- Embeds `percent_encoding::percent_encode` on one byte: a byte in the set
becomes a percent escape with uppercase hex, a byte outside passes
through. -/
def encodeByte (b : Nat) : List Char :=
  if PERCENT_ESCAPED b then ['%', hexUpper (b / 16), hexUpper (b % 16)]
  else [Char.ofNat b]

/-- Embeds `percent_encode` over a whole byte sequence. -/
def percentEncode (bs : List Nat) : String :=
  String.mk (bs.flatMap encodeByte)

/-- UTF-8 encoding of one code point (the bytes `str::as_ref` exposes). -/
def utf8Bytes (c : Nat) : List Nat :=
  if c < 128 then [c]
  else if c < 2048 then [192 + c / 64, 128 + c % 64]
  else if c < 65536 then [224 + c / 4096, 128 + c / 64 % 64, 128 + c % 64]
  else [240 + c / 262144, 128 + c / 4096 % 64, 128 + c / 64 % 64,
    128 + c % 64]

/-- The UTF-8 byte sequence of a string. -/
def strBytes (s : String) : List Nat :=
  s.data.flatMap (fun c => utf8Bytes c.toNat)

/-- Embeds the `Href` wrapper: a percent-encoded URI or URI path. -/
structure Href where
  href : String
deriving DecidableEq

/-- Embeds `Href::from_path`: percent-encode a non-encoded URI path. -/
def Href.from_path (path : String) : Href :=
  ⟨percentEncode (strBytes path)⟩

/-- Embeds `Href::as_ref`. -/
def Href.as_ref (h : Href) : String :=
  h.href

/-- C2: the depth extractor accepts exactly the header value "0" (mapping to
`Zero`, self-only) and "1" (mapping to `One`, self-plus-children); every
other depth request is refused, and the unlimited-depth refusal (value
"infinity", or an absent header, which the protocol defines as infinite
depth) is the distinct 403 depth-not-supported response, not the generic 400
failure. -/
theorem finite_depth_cases (h : DepthHeader) (d : FiniteDepth) :
    (FiniteDepth.from_request_parts h = Except.ok d ↔
      (h = DepthHeader.value "0" ∧ d = FiniteDepth.Zero) ∨
      (h = DepthHeader.value "1" ∧ d = FiniteDepth.One)) ∧
    (h ≠ DepthHeader.value "0" → h ≠ DepthHeader.value "1" →
      FiniteDepth.from_request_parts h = Except.error infiniteDepthResponse ∨
      FiniteDepth.from_request_parts h = Except.error badRequestResponse) ∧
    (FiniteDepth.from_request_parts (DepthHeader.value "infinity") =
      Except.error infiniteDepthResponse) ∧
    (FiniteDepth.from_request_parts DepthHeader.missing =
      Except.error infiniteDepthResponse) ∧
    infiniteDepthResponse ≠ badRequestResponse := by
  refine ⟨?_, ?_, by rfl, by rfl, by decide⟩
  · cases h with
    | missing => simp [FiniteDepth.from_request_parts]
    | invalid => simp [FiniteDepth.from_request_parts]
    | value s =>
      rw [FiniteDepth.from_request_parts]
      split_ifs with h0 h1 hinf
      · subst h0
        constructor
        · intro he
          exact Or.inl ⟨rfl, (Except.ok.inj he).symm⟩
        · rintro (⟨-, rfl⟩ | ⟨hv, -⟩)
          · rfl
          · exact absurd (DepthHeader.value.inj hv) (by decide)
      · subst h1
        constructor
        · intro he
          exact Or.inr ⟨rfl, (Except.ok.inj he).symm⟩
        · rintro (⟨hv, -⟩ | ⟨-, rfl⟩)
          · exact absurd (DepthHeader.value.inj hv) (by decide)
          · rfl
      · constructor
        · intro he
          cases he
        · rintro (⟨hv, -⟩ | ⟨hv, -⟩)
          · exact absurd (DepthHeader.value.inj hv) h0
          · exact absurd (DepthHeader.value.inj hv) h1
      · constructor
        · intro he
          cases he
        · rintro (⟨hv, -⟩ | ⟨hv, -⟩)
          · exact absurd (DepthHeader.value.inj hv) h0
          · exact absurd (DepthHeader.value.inj hv) h1
  · cases h with
    | missing => exact fun _ _ => Or.inl rfl
    | invalid => exact fun _ _ => Or.inr rfl
    | value s =>
      intro h0 h1
      rw [FiniteDepth.from_request_parts]
      split_ifs with hs0 hs1 hsi
      · exact absurd (by rw [hs0]) h0
      · exact absurd (by rw [hs1]) h1
      · exact Or.inl rfl
      · exact Or.inr rfl

set_option maxRecDepth 8192 in
/-- C3: the safe-character set of the address rendering is exactly ASCII
letters, digits, and `-`, `.`, `_`, `~`, `/`: those bytes pass through the
encoder unchanged and every other byte is percent-escaped; and the example
path renders as specified. -/
theorem href_from_path_encoding :
    (∀ b, b < 256 →
      encodeByte b =
        if (65 ≤ b ∧ b ≤ 90) ∨ (97 ≤ b ∧ b ≤ 122) ∨ (48 ≤ b ∧ b ≤ 57) ∨
            b = 45 ∨ b = 46 ∨ b = 95 ∨ b = 126 ∨ b = 47
        then [Char.ofNat b]
        else ['%', hexUpper (b / 16), hexUpper (b % 16)]) ∧
    (Href.from_path "/foo bar/baz_quux.gnusto/red&green?blue").as_ref =
      "/foo%20bar/baz_quux.gnusto/red%26green%3Fblue" := by
  exact ⟨by decide, by decide⟩

/-! Embedding of the timestamp renderings of `src/dav/util.rs`. The `time`
crate's instant arithmetic is embedded with the standard civil-calendar
conversions on days since 1970-01-01. -/

/-- Days since 1970-01-01 of a proleptic Gregorian date. -/
def daysFromCivil (y : Int) (m : Nat) (d : Nat) : Int :=
  let y2 : Int := if m ≤ 2 then y - 1 else y
  let era : Int := Int.fdiv y2 400
  let yoe : Int := y2 - era * 400
  let mp : Int := if m ≤ 2 then (m : Int) + 9 else (m : Int) - 3
  let doy : Int := Int.fdiv (153 * mp + 2) 5 + (d : Int) - 1
  let doe : Int := yoe * 365 + Int.fdiv yoe 4 - Int.fdiv yoe 100 + doy
  era * 146097 + doe - 719468

/-- The proleptic Gregorian date of a count of days since 1970-01-01. -/
def civilFromDays (z0 : Int) : Int × Nat × Nat :=
  let z := z0 + 719468
  let era : Int := Int.fdiv z 146097
  let doe : Int := z - era * 146097
  let yoe : Int :=
    Int.fdiv (doe - Int.fdiv doe 1460 + Int.fdiv doe 36524 -
      Int.fdiv doe 146096) 365
  let y : Int := yoe + era * 400
  let doy : Int := doe - (365 * yoe + Int.fdiv yoe 4 - Int.fdiv yoe 100)
  let mp : Int := Int.fdiv (5 * doy + 2) 153
  let d : Int := doy - Int.fdiv (153 * mp + 2) 5 + 1
  let m : Int := if mp < 10 then mp + 3 else mp - 9
  (if m ≤ 2 then y + 1 else y, m.toNat, d.toNat)

/-- The absolute instant a stored date-time denotes: seconds since the epoch,
the stored offset subtracted out. -/
def OffsetDateTime.instant (dt : OffsetDateTime) : Int :=
  daysFromCivil dt.year dt.month dt.day * 86400 + (dt.hour : Int) * 3600 +
    (dt.minute : Int) * 60 + (dt.second : Int) - dt.offset

/-- Embeds `OffsetDateTime::to_offset(UtcOffset::UTC)`: the same instant with
the civil fields recomputed at offset zero. -/
def OffsetDateTime.to_utc (dt : OffsetDateTime) : OffsetDateTime :=
  ⟨(civilFromDays (Int.fdiv dt.instant 86400)).1,
    (civilFromDays (Int.fdiv dt.instant 86400)).2.1,
    (civilFromDays (Int.fdiv dt.instant 86400)).2.2,
    (Int.emod dt.instant 86400).toNat / 3600,
    (Int.emod dt.instant 86400).toNat / 60 % 60,
    (Int.emod dt.instant 86400).toNat % 60, 0⟩

/-- Weekday index of a count of days since 1970-01-01 (0 = Sunday; the epoch
day was a Thursday). -/
def weekdayOfDays (days : Int) : Nat :=
  (Int.emod (days + 4) 7).toNat

/-- The character of one decimal digit. -/
def decDigitAux : Nat → Char
  | 0 => '0' | 1 => '1' | 2 => '2' | 3 => '3' | 4 => '4' | 5 => '5'
  | 6 => '6' | 7 => '7' | 8 => '8' | _ => '9'

/-- The decimal digit character at the units place of a number. -/
def decDigit (n : Nat) : Char :=
  decDigitAux (n % 10)

/-- A number rendered as exactly two zero-padded decimal digits. -/
def pad2Chars (n : Nat) : List Char :=
  [decDigit (n / 10), decDigit n]

/-- A number rendered as exactly four zero-padded decimal digits. -/
def pad4Chars (n : Nat) : List Char :=
  [decDigit (n / 1000), decDigit (n / 100), decDigit (n / 10), decDigit n]

/-- Three-letter weekday abbreviations (0 = Sunday). -/
def weekdayAbbr : Nat → String
  | 0 => "Sun" | 1 => "Mon" | 2 => "Tue" | 3 => "Wed" | 4 => "Thu"
  | 5 => "Fri" | _ => "Sat"

/-- Three-letter month abbreviations (1 = January). -/
def monthAbbr : Nat → String
  | 1 => "Jan" | 2 => "Feb" | 3 => "Mar" | 4 => "Apr" | 5 => "May"
  | 6 => "Jun" | 7 => "Jul" | 8 => "Aug" | 9 => "Sep" | 10 => "Oct"
  | 11 => "Nov" | _ => "Dec"

/-- Embeds the `RFC1123` format description of util.rs applied to a
date-time: short weekday, zero-padded day, short month, year, time, literal
GMT. -/
def formatRFC1123 (dt : OffsetDateTime) : String :=
  weekdayAbbr (weekdayOfDays (daysFromCivil dt.year dt.month dt.day)) ++
    ", " ++ String.mk (pad2Chars dt.day) ++ " " ++ monthAbbr dt.month ++
    " " ++ String.mk (pad4Chars dt.year.toNat) ++ " " ++
    String.mk (pad2Chars dt.hour) ++ ":" ++ String.mk (pad2Chars dt.minute) ++
    ":" ++ String.mk (pad2Chars dt.second) ++ " GMT"

/-- Embeds `format_modifieddate`: convert the stored instant to UTC, then
render it in the RFC 1123 form. -/
def format_modifieddate (dt : OffsetDateTime) : String :=
  formatRFC1123 dt.to_utc

/-- C4: the modification-timestamp rendering converts to UTC first, so it
depends only on the underlying instant, not on the stored offset; and the
instant 1994-11-06T03:49:37-05:00 renders as
"Sun, 06 Nov 1994 08:49:37 GMT". -/
theorem format_modifieddate_instant (dt1 dt2 : OffsetDateTime)
    (h : dt1.instant = dt2.instant) :
    format_modifieddate dt1 = format_modifieddate dt2 ∧
    format_modifieddate ⟨1994, 11, 6, 3, 49, 37, -(5 * 3600)⟩ =
      "Sun, 06 Nov 1994 08:49:37 GMT" := by
  constructor
  · unfold format_modifieddate OffsetDateTime.to_utc
    rw [h]
  · decide

/-- Witness for C4: the same instant stored at offset -05:00 and at UTC. -/
theorem format_modifieddate_instant_witness :
    format_modifieddate ⟨1994, 11, 6, 3, 49, 37, -(5 * 3600)⟩ =
      format_modifieddate ⟨1994, 11, 6, 8, 49, 37, 0⟩ :=
  (format_modifieddate_instant ⟨1994, 11, 6, 3, 49, 37, -(5 * 3600)⟩
    ⟨1994, 11, 6, 8, 49, 37, 0⟩ (by decide)).1

/-- Embeds the offset suffix of the RFC 3339 rendering: `Z` for a zero
offset, otherwise a sign and zero-padded hours and minutes. -/
def rfc3339OffsetChars (off : Int) : List Char :=
  if off = 0 then ['Z']
  else
    (if 0 ≤ off then '+' else '-') ::
      (pad2Chars (off.natAbs / 3600) ++ ':' ::
        pad2Chars (off.natAbs % 3600 / 60))

/-- Embeds `format_creationdate`: the `time` crate's RFC 3339 rendering of
the stored date-time at its stored offset. -/
def format_creationdate (dt : OffsetDateTime) : String :=
  String.mk
    (pad4Chars dt.year.toNat ++ '-' :: pad2Chars dt.month ++ '-' ::
      pad2Chars dt.day ++ 'T' :: pad2Chars dt.hour ++ ':' ::
      pad2Chars dt.minute ++ ':' :: pad2Chars dt.second ++
      rfc3339OffsetChars dt.offset)

/-- The numeric value of a decimal digit character. -/
def digitVal (c : Char) : Nat :=
  c.toNat - 48

/-- Whether a character is a decimal digit. -/
def isDigitChar (c : Char) : Bool :=
  48 ≤ c.toNat && c.toNat ≤ 57

/-- Modelled from the spec: a reader of the complete date-time-with-offset
textual form (RFC 3339), used to state that the creation rendering loses no
information; no such reader is among the given sources. -/
def parseRFC3339 (str : String) : Option OffsetDateTime :=
  match str.data with
  | y1 :: y2 :: y3 :: y4 :: c1 :: mo1 :: mo2 :: c2 :: d1 :: d2 :: c3 ::
      h1 :: h2 :: c4 :: mi1 :: mi2 :: c5 :: s1 :: s2 :: rest =>
    if c1 = '-' ∧ c2 = '-' ∧ c3 = 'T' ∧ c4 = ':' ∧ c5 = ':' ∧
        isDigitChar y1 ∧ isDigitChar y2 ∧ isDigitChar y3 ∧ isDigitChar y4 ∧
        isDigitChar mo1 ∧ isDigitChar mo2 ∧ isDigitChar d1 ∧ isDigitChar d2 ∧
        isDigitChar h1 ∧ isDigitChar h2 ∧ isDigitChar mi1 ∧ isDigitChar mi2 ∧
        isDigitChar s1 ∧ isDigitChar s2 then
      let y := digitVal y1 * 1000 + digitVal y2 * 100 + digitVal y3 * 10 +
        digitVal y4
      let mo := digitVal mo1 * 10 + digitVal mo2
      let d := digitVal d1 * 10 + digitVal d2
      let h := digitVal h1 * 10 + digitVal h2
      let mi := digitVal mi1 * 10 + digitVal mi2
      let sec := digitVal s1 * 10 + digitVal s2
      match rest with
      | [z] =>
        if z = 'Z' then some ⟨(y : Int), mo, d, h, mi, sec, 0⟩ else none
      | [sg, o1, o2, c6, o3, o4] =>
        if c6 = ':' ∧ isDigitChar o1 ∧ isDigitChar o2 ∧ isDigitChar o3 ∧
            isDigitChar o4 then
          let off : Int := ((digitVal o1 * 10 + digitVal o2) * 3600 +
            (digitVal o3 * 10 + digitVal o4) * 60 : Nat)
          if sg = '+' then some ⟨(y : Int), mo, d, h, mi, sec, off⟩
          else if sg = '-' then some ⟨(y : Int), mo, d, h, mi, sec, -off⟩
          else none
        else none
      | _ => none
    else none
  | _ => none

/-- Helper: the digit characters the renderings emit pass the digit test. -/
theorem isDigitChar_decDigit (n : Nat) : isDigitChar (decDigit n) = true := by
  rw [decDigit]
  have h : n % 10 < 10 := Nat.mod_lt _ (by decide)
  interval_cases hr : (n % 10) <;> decide

/-- Helper: reading back a rendered digit recovers the units digit. -/
theorem digitVal_decDigit (n : Nat) : digitVal (decDigit n) = n % 10 := by
  rw [decDigit]
  have h : n % 10 < 10 := Nat.mod_lt _ (by decide)
  interval_cases hr : (n % 10) <;> simp_all <;> decide

/-- Helper: parsing the creation rendering back recovers the stored
date-time exactly, for every date-time whose fields are in rendering
range. -/
theorem parseRFC3339_format_creationdate (dt : OffsetDateTime)
    (hy0 : 0 ≤ dt.year) (hy : dt.year ≤ 9999) (hmo : dt.month < 100)
    (hd : dt.day < 100) (hh : dt.hour < 100) (hmi : dt.minute < 100)
    (hs : dt.second < 100) (hoa : dt.offset.natAbs < 360000)
    (ho60 : dt.offset.natAbs % 60 = 0) :
    parseRFC3339 (format_creationdate dt) = some dt := by
  obtain ⟨y, mo, d, h, mi, s, off⟩ := dt
  simp only at hy0 hy hmo hd hh hmi hs hoa ho60
  have hdig : ∀ n : Nat, isDigitChar (decDigit n) = true := isDigitChar_decDigit
  rcases lt_trichotomy off 0 with hneg | rfl | hpos
  · have hoc : rfc3339OffsetChars off = '-' ::
        (pad2Chars (off.natAbs / 3600) ++ ':' ::
          pad2Chars (off.natAbs % 3600 / 60)) := by
      rw [rfc3339OffsetChars, if_neg (by omega)]
      congr 1
      rw [if_neg (by omega)]
    simp only [format_creationdate]
    rw [hoc, parseRFC3339]
    simp only [pad4Chars, pad2Chars, List.cons_append, List.nil_append]
    rw [if_pos ⟨trivial, trivial, trivial, trivial, trivial, hdig _, hdig _,
      hdig _, hdig _, hdig _, hdig _, hdig _, hdig _, hdig _, hdig _,
      hdig _, hdig _, hdig _, hdig _⟩]
    rw [if_pos ⟨trivial, hdig _, hdig _, hdig _, hdig _⟩]
    rw [if_neg (show ¬ (('-' : Char) = '+') from by decide)]
    rw [if_pos trivial]
    simp only [Option.some.injEq, OffsetDateTime.mk.injEq, digitVal_decDigit]
    refine ⟨?_, ?_, ?_, ?_, ?_, ?_, ?_⟩ <;> omega
  · have hoc : rfc3339OffsetChars 0 = ['Z'] := rfl
    simp only [format_creationdate]
    rw [hoc, parseRFC3339]
    simp only [pad4Chars, pad2Chars, List.cons_append, List.nil_append]
    rw [if_pos ⟨trivial, trivial, trivial, trivial, trivial, hdig _, hdig _,
      hdig _, hdig _, hdig _, hdig _, hdig _, hdig _, hdig _, hdig _,
      hdig _, hdig _, hdig _, hdig _⟩]
    rw [if_pos trivial]
    simp only [Option.some.injEq, OffsetDateTime.mk.injEq, digitVal_decDigit]
    refine ⟨?_, ?_, ?_, ?_, ?_, ?_, trivial⟩ <;> omega
  · have hoc : rfc3339OffsetChars off = '+' ::
        (pad2Chars (off.natAbs / 3600) ++ ':' ::
          pad2Chars (off.natAbs % 3600 / 60)) := by
      rw [rfc3339OffsetChars, if_neg (by omega)]
      congr 1
      rw [if_pos (by omega)]
    simp only [format_creationdate]
    rw [hoc, parseRFC3339]
    simp only [pad4Chars, pad2Chars, List.cons_append, List.nil_append]
    rw [if_pos ⟨trivial, trivial, trivial, trivial, trivial, hdig _, hdig _,
      hdig _, hdig _, hdig _, hdig _, hdig _, hdig _, hdig _, hdig _,
      hdig _, hdig _, hdig _, hdig _⟩]
    rw [if_pos ⟨trivial, hdig _, hdig _, hdig _, hdig _⟩]
    rw [if_pos trivial]
    simp only [Option.some.injEq, OffsetDateTime.mk.injEq, digitVal_decDigit]
    refine ⟨?_, ?_, ?_, ?_, ?_, ?_, ?_⟩ <;> omega

/-- C8: the creation rendering is a complete date-time-with-offset form:
parsed back, it denotes the same instant as the input, so the modification
rendering of the parsed-back value is the same string as that of the
original (for every date-time whose fields are in rendering range). -/
theorem creation_modification_same_instant (dt : OffsetDateTime)
    (hy0 : 0 ≤ dt.year) (hy : dt.year ≤ 9999) (hmo : dt.month < 100)
    (hd : dt.day < 100) (hh : dt.hour < 100) (hmi : dt.minute < 100)
    (hs : dt.second < 100) (hoa : dt.offset.natAbs < 360000)
    (ho60 : dt.offset.natAbs % 60 = 0) :
    ∃ dt2, parseRFC3339 (format_creationdate dt) = some dt2 ∧
      dt2.instant = dt.instant ∧
      format_modifieddate dt2 = format_modifieddate dt :=
  ⟨dt, parseRFC3339_format_creationdate dt hy0 hy hmo hd hh hmi hs hoa ho60,
    rfl, rfl⟩

/-- Witness for C8: the round trip at 1994-11-06T03:49:37-05:00. -/
theorem creation_modification_same_instant_witness :
    ∃ dt2,
      parseRFC3339
          (format_creationdate ⟨1994, 11, 6, 3, 49, 37, -(5 * 3600)⟩) =
        some dt2 ∧
      dt2.instant =
        OffsetDateTime.instant ⟨1994, 11, 6, 3, 49, 37, -(5 * 3600)⟩ ∧
      format_modifieddate dt2 =
        format_modifieddate ⟨1994, 11, 6, 3, 49, 37, -(5 * 3600)⟩ :=
  creation_modification_same_instant ⟨1994, 11, 6, 3, 49, 37, -(5 * 3600)⟩
    (by decide) (by decide) (by decide) (by decide) (by decide) (by decide)
    (by decide) (by decide) (by decide)

end Dandidav
